import Mathlib

/-
Verification of the CSV water-temperature accumulation engine
(datastream-svelte-csv).

Modelling conventions, used throughout:
* JavaScript numbers are modelled by `JsNum`: NaN, +Infinity, -Infinity, or
  an exact rational.  Finite arithmetic is exact (the project declares
  float-level precision a non-goal); the special values follow the IEEE
  rules JavaScript uses (NaN absorbs, Infinity - Infinity = NaN, ...).
* JavaScript `Map` is modelled by `JsMap`: an insertion-ordered association
  list.  `get` returns the first binding, `set` overwrites the first
  binding in place or appends, matching `Map.prototype.set`/`get`.
* `parseFloat` is modelled by `jsParseFloat`, implementing the ECMAScript
  grammar: skip leading whitespace, optional sign, `Infinity` literal or a
  decimal literal with optional fraction and exponent, longest valid
  prefix, NaN when no prefix parses.
-/

namespace DatastreamCsv

/-- A JavaScript number: NaN, an infinity, or a finite (exact) rational. -/
inductive JsNum where
  | nan
  | inf
  | negInf
  | fin (q : ℚ)
deriving DecidableEq

/-- JavaScript addition on `JsNum`. -/
def jsAdd : JsNum → JsNum → JsNum
  | .nan, _ => .nan
  | _, .nan => .nan
  | .inf, .negInf => .nan
  | .negInf, .inf => .nan
  | .inf, _ => .inf
  | _, .inf => .inf
  | .negInf, _ => .negInf
  | _, .negInf => .negInf
  | .fin a, .fin b => .fin (a + b)

/-- JavaScript multiplication on `JsNum`. -/
def jsMul : JsNum → JsNum → JsNum
  | .nan, _ => .nan
  | _, .nan => .nan
  | .inf, .inf => .inf
  | .inf, .negInf => .negInf
  | .negInf, .inf => .negInf
  | .negInf, .negInf => .inf
  | .inf, .fin b => if 0 < b then .inf else if b < 0 then .negInf else .nan
  | .fin a, .inf => if 0 < a then .inf else if a < 0 then .negInf else .nan
  | .negInf, .fin b => if 0 < b then .negInf else if b < 0 then .inf else .nan
  | .fin a, .negInf => if 0 < a then .negInf else if a < 0 then .inf else .nan
  | .fin a, .fin b => .fin (a * b)

/-- JavaScript division on `JsNum` (divisors in this code are `1000` and
nonnegative counts, so the `-0` corner of IEEE division does not arise). -/
def jsDiv : JsNum → JsNum → JsNum
  | .nan, _ => .nan
  | _, .nan => .nan
  | .inf, .inf => .nan
  | .inf, .negInf => .nan
  | .negInf, .inf => .nan
  | .negInf, .negInf => .nan
  | .inf, .fin b => if b < 0 then .negInf else .inf
  | .negInf, .fin b => if b < 0 then .inf else .negInf
  | .fin _, .inf => .fin 0
  | .fin _, .negInf => .fin 0
  | .fin a, .fin b =>
      if b = 0 then (if a = 0 then .nan else if 0 < a then .inf else .negInf)
      else .fin (a / b)

/-- `Math.floor`: floor on finite values, identity on NaN and infinities. -/
def jsFloor : JsNum → JsNum
  | .fin q => .fin ((⌊q⌋ : ℤ) : ℚ)
  | x => x

/-- `isNaN` on an already-parsed number. -/
def jsIsNaN : JsNum → Bool
  | .nan => true
  | _ => false

/-- The whitespace class used by `parseFloat` and string trimming. -/
def jsWhitespace (c : Char) : Bool :=
  c = ' ' ∨ c = '\t' ∨ c = '\n' ∨ c = '\r' ∨ c = '\x0b' ∨ c = '\x0c'

/-- Numeric value of a digit string (most significant first). -/
def digitsVal (ds : List Char) : ℕ :=
  ds.foldl (fun n c => 10 * n + (c.toNat - 48)) 0

/-- Split off the leading run of decimal digits. -/
def spanDigits (cs : List Char) : List Char × List Char :=
  (cs.takeWhile Char.isDigit, cs.dropWhile Char.isDigit)

/-- Parse an optional exponent part (`e`/`E`, optional sign, digits);
an incomplete exponent contributes nothing, as in `parseFloat("1e")`. -/
def exponentVal (cs : List Char) : ℤ :=
  match cs with
  | c :: rest =>
    if c = 'e' ∨ c = 'E' then
      match rest with
      | s :: rest2 =>
        if s = '+' then
          (let ds := (spanDigits rest2).1; if ds = [] then 0 else (digitsVal ds : ℤ))
        else if s = '-' then
          (let ds := (spanDigits rest2).1; if ds = [] then 0 else -(digitsVal ds : ℤ))
        else
          (let ds := (spanDigits rest).1; if ds = [] then 0 else (digitsVal ds : ℤ))
      | [] => 0
    else 0
  | [] => 0

/-- Parse an unsigned decimal literal (digits, optional `.digits`, optional
exponent) as the longest valid prefix; `none` when no digit is present.
Returns the digit string's value, the number of fractional digits, and the
exponent — all syntactic, so the result is computable by `decide`. -/
def parseDecimalRaw (cs : List Char) : Option (ℕ × ℕ × ℤ) :=
  let ipart := (spanDigits cs).1
  let rest1 := (spanDigits cs).2
  let fparts :=
    match rest1 with
    | '.' :: tl => spanDigits tl
    | _ => ([], rest1)
  if ipart = [] ∧ fparts.1 = [] then none
  else some (digitsVal (ipart ++ fparts.1), fparts.1.length, exponentVal fparts.2)

/-- The rational value of a parsed decimal literal: mantissa digits scaled
down by the fractional length and up by the exponent. -/
def decValue (mant fracLen : ℕ) (ex : ℤ) : ℚ :=
  (mant : ℚ) / (10 : ℚ) ^ fracLen * (10 : ℚ) ^ ex

/-- Parse an unsigned decimal literal to its rational value. -/
def parseDecimal (cs : List Char) : Option ℚ :=
  (parseDecimalRaw cs).map (fun t => decValue t.1 t.2.1 t.2.2)

/-- `tok.leadsWith cs`: `tok` is a leading segment of `cs`. -/
def leadsWith : List Char → List Char → Bool
  | [], _ => true
  | _ :: _, [] => false
  | a :: as, b :: bs => a = b && leadsWith as bs

/-- The body of `parseFloat` after whitespace and sign handling. -/
def parseUnsigned (pos : Bool) (cs : List Char) : JsNum :=
  if leadsWith "Infinity".data cs then (if pos then .inf else .negInf)
  else
    match parseDecimal cs with
    | some q => .fin (if pos then q else -q)
    | none => .nan

/-- `parseFloat` over a character list. -/
def parseFloatChars (cs : List Char) : JsNum :=
  match cs.dropWhile jsWhitespace with
  | '+' :: rest => parseUnsigned true rest
  | '-' :: rest => parseUnsigned false rest
  | rest => parseUnsigned true rest

/-- JavaScript `parseFloat`. -/
def jsParseFloat (s : String) : JsNum :=
  parseFloatChars s.data

/-- JavaScript `toLowerCase` (ASCII, which covers every string compared in
this code base). -/
def jsToLower (s : String) : String :=
  ⟨s.data.map Char.toLower⟩

/-- `String.prototype.trim` on a character list. -/
def jsTrimChars (cs : List Char) : List Char :=
  ((cs.dropWhile jsWhitespace).reverse.dropWhile jsWhitespace).reverse

/-- JavaScript `String.prototype.trim`. -/
def jsTrim (s : String) : String :=
  ⟨jsTrimChars s.data⟩

/-- Look up the value bound to the first occurrence of a key. -/
def lookupFirst {K V : Type} [DecidableEq K] (k : K) : List (K × V) → Option V
  | [] => none
  | e :: rest => if e.1 = k then some e.2 else lookupFirst k rest

/-- Overwrite the first binding of the key in place, or append a new one,
as `Map.prototype.set` does. -/
def setFirst {K V : Type} [DecidableEq K] (k : K) (v : V) : List (K × V) → List (K × V)
  | [] => [(k, v)]
  | e :: rest => if e.1 = k then (e.1, v) :: rest else e :: setFirst k v rest

/-- A JavaScript `Map`: an insertion-ordered list of key/value bindings. -/
structure JsMap (K V : Type) where
  entries : List (K × V)
deriving DecidableEq

/-- `new Map()`. -/
def JsMap.empty {K V : Type} : JsMap K V := ⟨[]⟩

/-- `Map.prototype.get` (`none` plays the role of `undefined`). -/
def JsMap.get {K V : Type} [DecidableEq K] (m : JsMap K V) (k : K) : Option V :=
  lookupFirst k m.entries

/-- `Map.prototype.set`. -/
def JsMap.set {K V : Type} [DecidableEq K] (m : JsMap K V) (k : K) (v : V) : JsMap K V :=
  ⟨setFirst k v m.entries⟩

/-- `Map.prototype.has`. -/
def JsMap.has {K V : Type} [DecidableEq K] (m : JsMap K V) (k : K) : Bool :=
  (m.get k).isSome

/-- `Map.prototype.keys`, in iteration (insertion) order. -/
def JsMap.keys {K V : Type} (m : JsMap K V) : List K :=
  m.entries.map Prod.fst

/-- The `new Map(iterable)` constructor: set each pair in order. -/
def JsMap.ofList {K V : Type} [DecidableEq K] (l : List (K × V)) : JsMap K V :=
  l.foldl (fun m e => m.set e.1 e.2) ⟨[]⟩

/-- Keys are pairwise distinct (every map actually built by `Map` satisfies
this; the association-list model has to state it). -/
def JsMap.WF {K V : Type} (m : JsMap K V) : Prop :=
  (m.entries.map Prod.fst).Nodup

/-
The accumulator, translated from src/lib/RecordDataAccumulator.ts.
-/

/-- A data record (normalized to intercapped field names). -/
structure Record where
  ResultValue : String
  CharacteristicName : String
  MonitoringLocationID : String
  MonitoringLocationName : String
deriving DecidableEq

/-- Result data for a monitoring location.  NOTE: the shipped
`RecordDataAccumulator.getLocationResults` populates only `average`; it has
no `count` field. -/
structure LocationResult where
  average : JsNum
deriving DecidableEq

/-- Per-location frequency map: quantized millidegree value → count. -/
abbrev ResultHistogram := JsMap JsNum Nat

/-- `Object.values(CharacteristicName)`. -/
def CHARACTERISTIC_NAME_VALUES : List String := ["Temperature, water"]

/-- Map of lowercase characteristic names to their canonical form. -/
def CHARACTERISTIC_NAME_MAP : JsMap String String :=
  JsMap.ofList (CHARACTERISTIC_NAME_VALUES.map (fun val => (jsToLower val, val)))

/-- The mutable state of `RecordDataAccumulator`. -/
structure RecordDataAccumulator where
  locationData : JsMap String ResultHistogram
  locations : JsMap String String
deriving DecidableEq

/-- `new RecordDataAccumulator()`. -/
def RecordDataAccumulator.init : RecordDataAccumulator :=
  ⟨JsMap.empty, JsMap.empty⟩

/-- Accessor `getLocationData`. -/
def RecordDataAccumulator.getLocationData (acc : RecordDataAccumulator) :
    JsMap String ResultHistogram :=
  acc.locationData

/-- Accessor `getLocations`. -/
def RecordDataAccumulator.getLocations (acc : RecordDataAccumulator) :
    JsMap String String :=
  acc.locations

/-- `RecordDataAccumulator.add`, translated statement by statement: filter on
the characteristic, `parseFloat` the value, skip NaN, register the location
name, create the histogram if absent, then bump the count of the key
`Math.floor(resultValue * 1000)`. -/
def RecordDataAccumulator.add (acc : RecordDataAccumulator) (record : Record) :
    RecordDataAccumulator :=
  if CHARACTERISTIC_NAME_MAP.get (jsToLower record.CharacteristicName)
      = some "Temperature, water" then
    let locationId := record.MonitoringLocationID
    let locationName := record.MonitoringLocationName
    let resultValue := jsParseFloat record.ResultValue
    if jsIsNaN resultValue then acc
    else
      let locations' :=
        if acc.locations.has locationId then acc.locations
        else acc.locations.set locationId locationName
      let locationData' :=
        if acc.locationData.has locationId then acc.locationData
        else acc.locationData.set locationId JsMap.empty
      let resultValueMillis := jsFloor (jsMul resultValue (.fin 1000))
      let hist := (locationData'.get locationId).getD JsMap.empty
      let locationValueCount := (hist.get resultValueMillis).getD 0
      { locationData := locationData'.set locationId (hist.set resultValueMillis (locationValueCount + 1)),
        locations := locations' }
  else acc

/-- The inner loop of `getLocationResults`: walk one histogram, summing
`millis * count` and `count`. -/
def histSums (histogram : ResultHistogram) : JsNum × Nat :=
  histogram.entries.foldl
    (fun p e => (jsAdd p.1 (jsMul e.1 (.fin (e.2 : ℚ))), p.2 + e.2))
    (.fin 0, 0)

/-- `RecordDataAccumulator.getLocationResults`: first loop builds
`locationToSumMillisAndCount`, second loop emits per-location averages while
accumulating the overall sum and count, then sets `-ALL-` when the overall
count is positive. -/
def RecordDataAccumulator.getLocationResults (acc : RecordDataAccumulator) :
    JsMap String LocationResult :=
  let locationToSumMillisAndCount : JsMap String (JsNum × Nat) :=
    acc.locationData.entries.foldl (fun m e => m.set e.1 (histSums e.2)) JsMap.empty
  let final :=
    locationToSumMillisAndCount.entries.foldl
      (fun (st : JsMap String LocationResult × JsNum × Nat) e =>
        (st.1.set e.1 ⟨jsDiv (jsDiv e.2.1 (.fin 1000)) (.fin (e.2.2 : ℚ))⟩,
         jsAdd st.2.1 e.2.1, st.2.2 + e.2.2))
      (JsMap.empty, .fin 0, 0)
  if 0 < final.2.2 then
    final.1.set "-ALL-" ⟨jsDiv (jsDiv final.2.1 (.fin 1000)) (.fin (final.2.2 : ℚ))⟩
  else final.1

/-- A sequence of `add` calls against a freshly constructed accumulator. -/
def accumulate (records : List Record) : RecordDataAccumulator :=
  records.foldl RecordDataAccumulator.add .init

/-
Header validation and normalization, translated from src/lib/CsvParserCommon.ts.
-/

/-- Required columns, in their canonical intercapped form. -/
def REQUIRED_COLUMNS : List String :=
  ["ResultValue", "CharacteristicName", "MonitoringLocationID", "MonitoringLocationName"]

/-- Map of lowercase column names to their canonical intercapped form. -/
def REQUIRED_COLUMN_NAME_MAP : JsMap String String :=
  JsMap.ofList (REQUIRED_COLUMNS.map (fun val => (jsToLower val, val)))

/-- The message of the `MissingColumnError` thrown by `validateHeaders`. -/
def missingColumnMessage (canonicalName : String) : String :=
  "Missing required column: " ++ canonicalName ++ " (case-insensitive)"

/-- The loop of `validateHeaders` over `REQUIRED_COLUMN_NAME_MAP.keys()`. -/
def validateHeadersGo (requiredKeys : List String) (normalizedHeaders : List String) :
    Except String Unit :=
  match requiredKeys with
  | [] => .ok ()
  | requiredLowercase :: rest =>
    if requiredLowercase ∈ normalizedHeaders then validateHeadersGo rest normalizedHeaders
    else .error (missingColumnMessage
      ((REQUIRED_COLUMN_NAME_MAP.get requiredLowercase).getD "undefined"))

/-- `validateHeaders`: throws `MissingColumnError` on the first required
column with no case-insensitive match. -/
def validateHeaders (headers : List String) : Except String Unit :=
  validateHeadersGo REQUIRED_COLUMN_NAME_MAP.keys (headers.map jsToLower)

/-- `normalizeHeaders`: canonicalize matching headers, pass others through. -/
def normalizeHeaders (headers : List String) : List String :=
  headers.map (fun header =>
    (REQUIRED_COLUMN_NAME_MAP.get (jsToLower header)).getD header)

/-
Association-list lemmas for the `JsMap` model.
-/

section JsMapLemmas

variable {K V : Type} [DecidableEq K]

theorem lookupFirst_setFirst_self (k : K) (v : V) (l : List (K × V)) :
    lookupFirst k (setFirst k v l) = some v := by
  induction l with
  | nil => simp [setFirst, lookupFirst]
  | cons e rest ih =>
    by_cases h : e.1 = k
    · simp [setFirst, lookupFirst, h]
    · simp [setFirst, lookupFirst, h, ih]

theorem lookupFirst_setFirst_ne (k k' : K) (v : V) (l : List (K × V)) (h : k' ≠ k) :
    lookupFirst k' (setFirst k v l) = lookupFirst k' l := by
  have hki : ¬(k = k') := fun hk => h hk.symm
  induction l with
  | nil => simp [setFirst, lookupFirst, hki]
  | cons e rest ih =>
    by_cases he : e.1 = k
    · subst he
      simp [setFirst, lookupFirst, hki]
    · simp [setFirst, lookupFirst, he, ih]

theorem lookupFirst_isSome_iff (k : K) (l : List (K × V)) :
    (lookupFirst k l).isSome = true ↔ k ∈ l.map Prod.fst := by
  induction l with
  | nil => simp [lookupFirst]
  | cons e rest ih =>
    by_cases h : e.1 = k
    · simp [lookupFirst, h]
    · have hk : ¬(k = e.1) := fun hk => h hk.symm
      simp [lookupFirst, h, ih, hk]

theorem lookupFirst_eq_none_iff (k : K) (l : List (K × V)) :
    lookupFirst k l = none ↔ k ∉ l.map Prod.fst := by
  rw [← lookupFirst_isSome_iff (V := V) k l]
  cases lookupFirst k l <;> simp

theorem setFirst_of_not_mem (k : K) (v : V) (l : List (K × V))
    (h : k ∉ l.map Prod.fst) : setFirst k v l = l ++ [(k, v)] := by
  induction l with
  | nil => simp [setFirst]
  | cons e rest ih =>
    simp only [List.map_cons, List.mem_cons] at h
    push_neg at h
    have hne : ¬(e.1 = k) := fun hk => h.1 hk.symm
    simp [setFirst, hne, ih h.2]

theorem keys_setFirst_of_mem (k : K) (v : V) (l : List (K × V))
    (h : k ∈ l.map Prod.fst) : (setFirst k v l).map Prod.fst = l.map Prod.fst := by
  induction l with
  | nil => simp at h
  | cons e rest ih =>
    by_cases he : e.1 = k
    · simp [setFirst, he]
    · simp only [List.map_cons, List.mem_cons] at h
      rcases h with h | h

      · exact absurd h.symm he
      · simp [setFirst, he, ih h]

theorem snd_of_mem_setFirst (k : K) (v : V) (l : List (K × V)) :
    ∀ e ∈ setFirst k v l, e.2 = v ∨ e ∈ l := by
  induction l with
  | nil => simp [setFirst]
  | cons e rest ih =>
    intro x hx
    by_cases he : e.1 = k
    · simp only [setFirst, if_pos he] at hx
      rcases List.mem_cons.mp hx with hx1 | hx1
      · left; rw [hx1]
      · right; exact List.mem_cons_of_mem e hx1
    · simp only [setFirst, if_neg he] at hx
      rcases List.mem_cons.mp hx with hx1 | hx1
      · right; rw [hx1]; exact List.mem_cons_self e rest
      · rcases ih x hx1 with h1 | h1
        · left; exact h1
        · right; exact List.mem_cons_of_mem e h1

theorem setFirst_ne_nil (k : K) (v : V) (l : List (K × V)) : setFirst k v l ≠ [] := by
  cases l with
  | nil => simp [setFirst]
  | cons e rest =>
    by_cases he : e.1 = k <;> simp [setFirst, he]

theorem nodup_keys_setFirst (k : K) (v : V) (l : List (K × V))
    (h : (l.map Prod.fst).Nodup) : ((setFirst k v l).map Prod.fst).Nodup := by
  by_cases hm : k ∈ l.map Prod.fst
  · rw [keys_setFirst_of_mem k v l hm]; exact h
  · rw [setFirst_of_not_mem k v l hm]
    simp only [List.map_append, List.map_cons, List.map_nil]
    refine List.Nodup.append h (List.nodup_singleton k) ?_
    intro a ha hk
    rw [List.mem_singleton] at hk
    subst hk
    exact hm ha

/-- Folding `Map.prototype.set` over fresh, pairwise-distinct keys appends
the bindings in order. -/
theorem foldl_set_entries (l : List (K × V)) :
    ∀ m : JsMap K V, (l.map Prod.fst).Nodup →
      (∀ k ∈ l.map Prod.fst, k ∉ m.entries.map Prod.fst) →
      (l.foldl (fun m e => m.set e.1 e.2) m).entries = m.entries ++ l := by
  induction l with
  | nil => intro m _ _; simp
  | cons e rest ih =>
    intro m hnd hfresh
    simp only [List.map_cons, List.nodup_cons] at hnd
    have hne : e.1 ∉ m.entries.map Prod.fst := hfresh e.1 (by simp)
    have hstep : (m.set e.1 e.2).entries = m.entries ++ [(e.1, e.2)] :=
      setFirst_of_not_mem e.1 e.2 m.entries hne
    have hfresh' : ∀ k ∈ rest.map Prod.fst, k ∉ (m.set e.1 e.2).entries.map Prod.fst := by
      intro k hk hmem
      rw [hstep] at hmem
      simp only [List.map_append, List.map_cons, List.map_nil, List.mem_append,
        List.mem_singleton] at hmem
      rcases hmem with hmem | hmem
      · exact hfresh k (by simp [hk]) hmem
      · exact hnd.1 (hmem ▸ hk)
    calc ((e :: rest).foldl (fun m e => m.set e.1 e.2) m).entries
        = (rest.foldl (fun m e => m.set e.1 e.2) (m.set e.1 e.2)).entries := rfl
      _ = (m.set e.1 e.2).entries ++ rest := ih (m.set e.1 e.2) hnd.2 hfresh'
      _ = m.entries ++ (e :: rest) := by rw [hstep, List.append_assoc]; rfl

theorem JsMap.eq_of_entries_eq {K V : Type} {m m' : JsMap K V} (h : m.entries = m'.entries) :
    m = m' := by
  cases m; cases m'; cases h; rfl

/-- `new Map(l)` with pairwise-distinct keys is just `l`. -/
theorem ofList_eq_of_nodup (l : List (K × V)) (h : (l.map Prod.fst).Nodup) :
    JsMap.ofList l = ⟨l⟩ := by
  apply JsMap.eq_of_entries_eq
  show (List.foldl (fun (m : JsMap K V) (e : K × V) => m.set e.1 e.2) (⟨[]⟩ : JsMap K V) l).entries
      = (⟨l⟩ : JsMap K V).entries
  simpa using foldl_set_entries l ⟨[]⟩ h (by simp)

theorem lookupFirst_mem (k : K) (v : V) (l : List (K × V))
    (h : lookupFirst k l = some v) : (k, v) ∈ l := by
  induction l with
  | nil => simp [lookupFirst] at h
  | cons e rest ih =>
    by_cases he : e.1 = k
    · rw [lookupFirst, if_pos he] at h
      cases h
      rw [← he]
      exact List.mem_cons_self e rest
    · rw [lookupFirst, if_neg he] at h
      exact List.mem_cons_of_mem e (ih h)

theorem setFirst_setFirst (k : K) (v w : V) (l : List (K × V)) :
    setFirst k w (setFirst k v l) = setFirst k w l := by
  induction l with
  | nil => simp [setFirst]
  | cons e rest ih =>
    by_cases he : e.1 = k
    · simp [setFirst, he]
    · simp [setFirst, he, ih]

end JsMapLemmas

section JsMapLifted

variable {K V : Type} [DecidableEq K]

theorem JsMap.get_set_self (m : JsMap K V) (k : K) (v : V) : (m.set k v).get k = some v :=
  lookupFirst_setFirst_self k v m.entries

theorem JsMap.get_set_ne (m : JsMap K V) (k k' : K) (v : V) (h : k' ≠ k) :
    (m.set k v).get k' = m.get k' :=
  lookupFirst_setFirst_ne k k' v m.entries h

theorem JsMap.set_set (m : JsMap K V) (k : K) (v w : V) : (m.set k v).set k w = m.set k w :=
  JsMap.eq_of_entries_eq (setFirst_setFirst k v w m.entries)

theorem JsMap.has_iff (m : JsMap K V) (k : K) : m.has k = true ↔ k ∈ m.keys :=
  lookupFirst_isSome_iff k m.entries

end JsMapLifted

/-
Step equations for `RecordDataAccumulator.add`, and the reachable-state
invariant.
-/

/-- The quantized histogram key computed by `add` for a record. -/
def recordKey (r : Record) : JsNum :=
  jsFloor (jsMul (jsParseFloat r.ResultValue) (.fin 1000))

theorem add_of_char_mismatch (acc : RecordDataAccumulator) (r : Record)
    (hchar : ¬(CHARACTERISTIC_NAME_MAP.get (jsToLower r.CharacteristicName)
      = some "Temperature, water")) :
    acc.add r = acc := by
  rw [RecordDataAccumulator.add, if_neg hchar]

theorem add_of_nan (acc : RecordDataAccumulator) (r : Record)
    (hnan : jsIsNaN (jsParseFloat r.ResultValue) = true) :
    acc.add r = acc := by
  by_cases hchar : CHARACTERISTIC_NAME_MAP.get (jsToLower r.CharacteristicName)
      = some "Temperature, water"
  · rw [RecordDataAccumulator.add, if_pos hchar]
    simp only [hnan, if_true]
  · rw [RecordDataAccumulator.add, if_neg hchar]

theorem add_of_seen (acc : RecordDataAccumulator) (r : Record) (h0 : ResultHistogram)
    (hchar : CHARACTERISTIC_NAME_MAP.get (jsToLower r.CharacteristicName)
      = some "Temperature, water")
    (hnan : jsIsNaN (jsParseFloat r.ResultValue) = false)
    (hhasL : acc.locations.has r.MonitoringLocationID = true)
    (hget : acc.locationData.get r.MonitoringLocationID = some h0) :
    acc.add r = ⟨acc.locationData.set r.MonitoringLocationID
        (h0.set (recordKey r) ((h0.get (recordKey r)).getD 0 + 1)),
      acc.locations⟩ := by
  have hhasD : acc.locationData.has r.MonitoringLocationID = true := by
    rw [JsMap.has, hget]
    rfl
  rw [RecordDataAccumulator.add, if_pos hchar]
  simp only [hnan, Bool.false_eq_true, if_false, hhasL, if_true, hhasD, hget, Option.getD_some,
    recordKey]

theorem add_of_fresh (acc : RecordDataAccumulator) (r : Record)
    (hchar : CHARACTERISTIC_NAME_MAP.get (jsToLower r.CharacteristicName)
      = some "Temperature, water")
    (hnan : jsIsNaN (jsParseFloat r.ResultValue) = false)
    (hhasL : acc.locations.has r.MonitoringLocationID = false)
    (hhasD : acc.locationData.has r.MonitoringLocationID = false) :
    acc.add r = ⟨acc.locationData.set r.MonitoringLocationID ⟨[(recordKey r, 1)]⟩,
      acc.locations.set r.MonitoringLocationID r.MonitoringLocationName⟩ := by
  rw [RecordDataAccumulator.add, if_pos hchar]
  simp only [hnan, Bool.false_eq_true, if_false, hhasL, hhasD,
    JsMap.get_set_self, Option.getD_some, JsMap.set_set, recordKey]
  rfl

/-- What is always true of an accumulator built by `add` calls: the location
registry and the histogram map have the same keys in the same order, those
keys are pairwise distinct, and every histogram is nonempty with all counts
at least 1. -/
structure AccWF (acc : RecordDataAccumulator) : Prop where
  keysEq : acc.locations.keys = acc.locationData.keys
  locNodup : acc.locationData.keys.Nodup
  hists : ∀ e ∈ acc.locationData.entries, e.2.entries ≠ [] ∧ ∀ p ∈ e.2.entries, 1 ≤ p.2

theorem AccWF_init : AccWF RecordDataAccumulator.init := by
  refine ⟨rfl, List.nodup_nil, ?_⟩
  intro e he
  simp [RecordDataAccumulator.init, JsMap.empty] at he

theorem AccWF_add (acc : RecordDataAccumulator) (r : Record) (hwf : AccWF acc) :
    AccWF (acc.add r) := by
  by_cases hchar : CHARACTERISTIC_NAME_MAP.get (jsToLower r.CharacteristicName)
      = some "Temperature, water"
  case neg => rw [add_of_char_mismatch acc r hchar]; exact hwf
  by_cases hnan : jsIsNaN (jsParseFloat r.ResultValue) = true
  case pos => rw [add_of_nan acc r hnan]; exact hwf
  rw [Bool.not_eq_true] at hnan
  by_cases hhasL : acc.locations.has r.MonitoringLocationID = true
  · -- existing location: the histogram exists and only its contents change
    have hmemD : r.MonitoringLocationID ∈ acc.locationData.keys :=
      hwf.keysEq ▸ (JsMap.has_iff acc.locations r.MonitoringLocationID).mp hhasL
    obtain ⟨h0, hget⟩ := Option.isSome_iff_exists.mp
      ((lookupFirst_isSome_iff r.MonitoringLocationID acc.locationData.entries).mpr hmemD)
    have hget' : acc.locationData.get r.MonitoringLocationID = some h0 := hget
    rw [add_of_seen acc r h0 hchar hnan hhasL hget']
    have hmem0 : (r.MonitoringLocationID, h0) ∈ acc.locationData.entries :=
      lookupFirst_mem _ h0 _ hget
    refine ⟨?_, ?_, ?_⟩
    · rw [hwf.keysEq]
      exact (keys_setFirst_of_mem _ _ acc.locationData.entries hmemD).symm
    · show ((setFirst _ _ acc.locationData.entries).map Prod.fst).Nodup
      rw [keys_setFirst_of_mem _ _ acc.locationData.entries hmemD]
      exact hwf.locNodup
    · intro e he
      rcases snd_of_mem_setFirst _ _ acc.locationData.entries e he with h2 | h2
      · rw [h2]
        refine ⟨setFirst_ne_nil _ _ _, ?_⟩
        intro p hp
        rcases snd_of_mem_setFirst _ _ h0.entries p hp with h3 | h3
        · rw [h3]; omega
        · exact (hwf.hists ⟨r.MonitoringLocationID, h0⟩ hmem0).2 p h3
      · exact hwf.hists e h2
  · -- fresh location: both maps get the binding appended
    rw [Bool.not_eq_true] at hhasL
    have hmemL : r.MonitoringLocationID ∉ acc.locations.keys := by
      intro hmem
      rw [(JsMap.has_iff acc.locations r.MonitoringLocationID).mpr hmem] at hhasL
      cases hhasL
    have hmemD : r.MonitoringLocationID ∉ acc.locationData.keys := hwf.keysEq ▸ hmemL
    have hhasD : acc.locationData.has r.MonitoringLocationID = false := by
      rw [← Bool.not_eq_true]
      intro hh
      exact hmemD ((JsMap.has_iff acc.locationData r.MonitoringLocationID).mp hh)
    rw [add_of_fresh acc r hchar hnan hhasL hhasD]
    have hDentries : (acc.locationData.set r.MonitoringLocationID
        (⟨[(recordKey r, 1)]⟩ : ResultHistogram)).entries
        = acc.locationData.entries ++ [(r.MonitoringLocationID, ⟨[(recordKey r, 1)]⟩)] :=
      setFirst_of_not_mem _ _ acc.locationData.entries hmemD
    have hLentries : (acc.locations.set r.MonitoringLocationID r.MonitoringLocationName).entries
        = acc.locations.entries ++ [(r.MonitoringLocationID, r.MonitoringLocationName)] :=
      setFirst_of_not_mem _ _ acc.locations.entries hmemL
    refine ⟨?_, ?_, ?_⟩
    · show (JsMap.entries _).map Prod.fst = (JsMap.entries _).map Prod.fst
      rw [hDentries, hLentries]
      simp only [List.map_append, List.map_cons, List.map_nil]
      rw [show acc.locations.entries.map Prod.fst = acc.locations.keys from rfl, hwf.keysEq]
      rfl
    · show ((JsMap.entries _).map Prod.fst).Nodup
      rw [hDentries]
      simp only [List.map_append, List.map_cons, List.map_nil]
      refine List.Nodup.append hwf.locNodup (List.nodup_singleton _) ?_
      intro a ha hk2
      rw [List.mem_singleton] at hk2
      subst hk2
      exact hmemD ha
    · intro e he
      rw [show (JsMap.entries _) = acc.locationData.entries
          ++ [(r.MonitoringLocationID, (⟨[(recordKey r, 1)]⟩ : ResultHistogram))] from hDentries] at he
      rcases List.mem_append.mp he with h2 | h2
      · exact hwf.hists e h2
      · rw [List.mem_singleton] at h2
        rw [h2]
        exact ⟨by simp, by intro p hp; rw [List.mem_singleton] at hp; rw [hp]⟩

theorem AccWF_foldl (rs : List Record) :
    ∀ acc : RecordDataAccumulator, AccWF acc →
      AccWF (rs.foldl RecordDataAccumulator.add acc) := by
  induction rs with
  | nil => intro acc h; exact h
  | cons r rest ih => intro acc h; exact ih (acc.add r) (AccWF_add acc r h)

theorem AccWF_accumulate (rs : List Record) : AccWF (accumulate rs) :=
  AccWF_foldl rs RecordDataAccumulator.init AccWF_init

/-
Analysis of `getLocationResults`.
-/

/-- Specification-side: the sum over all locations of their millidegree
sums. -/
def totalSumMillis (acc : RecordDataAccumulator) : JsNum :=
  acc.locationData.entries.foldl (fun s e => jsAdd s (histSums e.2).1) (.fin 0)

/-- Specification-side: the total observation count across all locations. -/
def totalCount (acc : RecordDataAccumulator) : ℕ :=
  acc.locationData.entries.foldl (fun c e => c + (histSums e.2).2) 0

/-- The per-location average, as the code computes it. -/
def locAverage (h : ResultHistogram) : JsNum :=
  jsDiv (jsDiv (histSums h).1 (.fin 1000)) (.fin ((histSums h).2 : ℚ))

/-- Specification-side: `Σ (ai * ci)` over the locations, for per-location
averages `ai` and counts `ci`. -/
def weightedSum (acc : RecordDataAccumulator) : JsNum :=
  acc.locationData.entries.foldl
    (fun s e => jsAdd s (jsMul (locAverage e.2) (.fin (((histSums e.2).2 : ℚ))))) (.fin 0)

/-- The mapped variant of `foldl_set_entries`: building a map by setting a
transformed value for each of a list of fresh, distinct keys. -/
theorem foldl_set_f_entries {K V W : Type} [DecidableEq K] (f : V → W) (l : List (K × V)) :
    ∀ m : JsMap K W, (l.map Prod.fst).Nodup →
      (∀ k ∈ l.map Prod.fst, k ∉ m.entries.map Prod.fst) →
      (l.foldl (fun m e => m.set e.1 (f e.2)) m).entries
        = m.entries ++ l.map (fun e => (e.1, f e.2)) := by
  induction l with
  | nil => intro m _ _; simp
  | cons e rest ih =>
    intro m hnd hfresh
    simp only [List.map_cons, List.nodup_cons] at hnd
    have hne : e.1 ∉ m.entries.map Prod.fst := hfresh e.1 (by simp)
    have hstep : (m.set e.1 (f e.2)).entries = m.entries ++ [(e.1, f e.2)] :=
      setFirst_of_not_mem e.1 (f e.2) m.entries hne
    have hfresh' : ∀ k ∈ rest.map Prod.fst, k ∉ (m.set e.1 (f e.2)).entries.map Prod.fst := by
      intro k hk hmem
      rw [hstep] at hmem
      simp only [List.map_append, List.map_cons, List.map_nil, List.mem_append,
        List.mem_singleton] at hmem
      rcases hmem with hmem | hmem
      · exact hfresh k (by simp [hk]) hmem
      · exact hnd.1 (hmem ▸ hk)
    calc ((e :: rest).foldl (fun m e => m.set e.1 (f e.2)) m).entries
        = (rest.foldl (fun m e => m.set e.1 (f e.2)) (m.set e.1 (f e.2))).entries := rfl
      _ = (m.set e.1 (f e.2)).entries ++ rest.map (fun e => (e.1, f e.2)) :=
          ih (m.set e.1 (f e.2)) hnd.2 hfresh'
      _ = m.entries ++ (e :: rest).map (fun e => (e.1, f e.2)) := by
          rw [hstep, List.append_assoc]
          rfl

/-- The second loop of `getLocationResults` accumulates its overall
millidegree sum and count componentwise. -/
theorem results_fold_components (l : List (String × JsNum × ℕ)) :
    ∀ (m : JsMap String LocationResult) (s : JsNum) (c : ℕ),
      ((l.foldl
          (fun st e =>
            (st.1.set e.1 ⟨jsDiv (jsDiv e.2.1 (.fin 1000)) (.fin ((e.2.2 : ℚ)))⟩,
             jsAdd st.2.1 e.2.1, st.2.2 + e.2.2)) (m, s, c)).2.1
          = l.foldl (fun s e => jsAdd s e.2.1) s)
      ∧ ((l.foldl
          (fun st e =>
            (st.1.set e.1 ⟨jsDiv (jsDiv e.2.1 (.fin 1000)) (.fin ((e.2.2 : ℚ)))⟩,
             jsAdd st.2.1 e.2.1, st.2.2 + e.2.2)) (m, s, c)).2.2
          = l.foldl (fun c e => c + e.2.2) c) := by
  induction l with
  | nil => intro m s c; exact ⟨rfl, rfl⟩
  | cons e rest ih =>
    intro m s c
    exact ⟨(ih _ _ _).1, (ih _ _ _).2⟩

theorem le_foldl_add (l : List (JsNum × ℕ)) : ∀ n : ℕ, n ≤ l.foldl (fun c e => c + e.2) n := by
  induction l with
  | nil => intro n; exact Nat.le_refl n
  | cons e rest ih =>
    intro n
    exact Nat.le_trans (Nat.le_add_right n e.2) (ih (n + e.2))

theorem histSums_snd (h : ResultHistogram) :
    (histSums h).2 = h.entries.foldl (fun c e => c + e.2) 0 := by
  rw [histSums]
  generalize h.entries = l
  suffices hgen : ∀ p : JsNum × ℕ,
      (l.foldl (fun p e => (jsAdd p.1 (jsMul e.1 (.fin (e.2 : ℚ))), p.2 + e.2)) p).2
        = l.foldl (fun c e => c + e.2) p.2 from hgen (.fin 0, 0)
  induction l with
  | nil => intro p; rfl
  | cons e rest ih => intro p; exact ih _

theorem histSums_pos (h : ResultHistogram)
    (hne : h.entries ≠ []) (hcounts : ∀ p ∈ h.entries, 1 ≤ p.2) : 1 ≤ (histSums h).2 := by
  rw [histSums_snd]
  cases hl : h.entries with
  | nil => exact absurd hl hne
  | cons e rest =>
    have h1 : 1 ≤ e.2 := hcounts e (by rw [hl]; exact List.mem_cons_self e rest)
    calc (1 : ℕ) ≤ 0 + e.2 := by omega
      _ ≤ rest.foldl (fun c e => c + e.2) (0 + e.2) := le_foldl_add rest (0 + e.2)
      _ = (e :: rest).foldl (fun c e => c + e.2) 0 := rfl

theorem le_foldl_addHist (l : List (String × ResultHistogram)) :
    ∀ n : ℕ, n ≤ l.foldl (fun c e => c + (histSums e.2).2) n := by
  induction l with
  | nil => intro n; exact Nat.le_refl n
  | cons e rest ih =>
    intro n
    exact Nat.le_trans (Nat.le_add_right n (histSums e.2).2) (ih (n + (histSums e.2).2))

/-- A well-formed accumulator with total count 0 has no locations at all. -/
theorem locationData_nil_of_totalCount_zero (acc : RecordDataAccumulator) (hwf : AccWF acc)
    (h0 : totalCount acc = 0) : acc.locationData.entries = [] := by
  cases hl : acc.locationData.entries with
  | nil => rfl
  | cons e rest =>
    exfalso
    have hh := hwf.hists e (by rw [hl]; exact List.mem_cons_self e rest)
    have hpos : 1 ≤ (histSums e.2).2 := histSums_pos e.2 hh.1 hh.2
    have hge : 1 ≤ totalCount acc := by
      rw [totalCount, hl]
      calc (1 : ℕ) ≤ 0 + (histSums e.2).2 := by omega
        _ ≤ rest.foldl (fun c e => c + (histSums e.2).2) (0 + (histSums e.2).2) :=
            le_foldl_addHist rest (0 + (histSums e.2).2)
        _ = (e :: rest).foldl (fun c e => c + (histSums e.2).2) 0 := rfl
    omega

/-- The heart of the `-ALL-` analysis: over any well-formed accumulator, the
`-ALL-` entry of `getLocationResults` is the total millidegree sum divided
by 1000, divided by the total count, and is present exactly when the total
count is positive. -/
theorem getLocationResults_all (acc : RecordDataAccumulator) (hwf : AccWF acc) :
    (0 < totalCount acc →
      acc.getLocationResults.get "-ALL-"
        = some ⟨jsDiv (jsDiv (totalSumMillis acc) (.fin 1000)) (.fin ((totalCount acc : ℚ)))⟩)
    ∧ (totalCount acc = 0 → acc.getLocationResults.get "-ALL-" = none) := by
  have hM : (acc.locationData.entries.foldl
      (fun (m : JsMap String (JsNum × ℕ)) e => m.set e.1 (histSums e.2)) JsMap.empty).entries
      = acc.locationData.entries.map (fun e => (e.1, histSums e.2)) := by
    have := foldl_set_f_entries histSums acc.locationData.entries ⟨[]⟩ hwf.locNodup (by simp)
    simpa using this
  obtain ⟨hc1, hc2⟩ := results_fold_components
    (acc.locationData.entries.map (fun e => (e.1, histSums e.2))) JsMap.empty (.fin 0) 0
  have hsum : (acc.locationData.entries.map (fun e => (e.1, histSums e.2))).foldl
      (fun s e => jsAdd s e.2.1) (.fin 0) = totalSumMillis acc := by
    rw [List.foldl_map]
    rfl
  have hcount : (acc.locationData.entries.map (fun e => (e.1, histSums e.2))).foldl
      (fun c e => c + e.2.2) 0 = totalCount acc := by
    rw [List.foldl_map]
    rfl
  constructor
  · intro hpos
    simp only [RecordDataAccumulator.getLocationResults]
    rw [hM, hc1, hc2, hsum, hcount, if_pos hpos]
    exact JsMap.get_set_self _ _ _
  · intro h0
    have hnil := locationData_nil_of_totalCount_zero acc hwf h0
    simp only [RecordDataAccumulator.getLocationResults]
    rw [hnil]
    rfl

/-
The weighted-average reading of the `-ALL-` entry.
-/

theorem jsDiv_fin_zero_thousand : jsDiv (.fin 0) (.fin 1000) = JsNum.fin 0 := by
  norm_num [jsDiv]

theorem jsDiv_thousand_add (x y : JsNum) :
    jsDiv (jsAdd x y) (.fin 1000) = jsAdd (jsDiv x (.fin 1000)) (jsDiv y (.fin 1000)) := by
  cases x <;> cases y <;> norm_num [jsAdd, jsDiv, add_div]

theorem div_div_mul_cancel (s : JsNum) (c : ℕ) (hc : 1 ≤ c) :
    jsMul (jsDiv (jsDiv s (.fin 1000)) (.fin ((c : ℚ)))) (.fin ((c : ℚ)))
      = jsDiv s (.fin 1000) := by
  have hc0 : (0 : ℚ) < (c : ℚ) := by exact_mod_cast hc
  have hcne : (c : ℚ) ≠ 0 := ne_of_gt hc0
  have hnlt : ¬((c : ℚ) < 0) := not_lt.mpr hc0.le
  cases s with
  | nan => norm_num [jsDiv, jsMul]
  | inf => norm_num [jsDiv, jsMul, hc0, hnlt]
  | negInf => norm_num [jsDiv, jsMul, hc0, hnlt]
  | fin a => norm_num [jsDiv, jsMul, hcne, div_mul_cancel₀]

theorem locAverage_mul (h : ResultHistogram) (hc : 1 ≤ (histSums h).2) :
    jsMul (locAverage h) (.fin (((histSums h).2 : ℚ))) = jsDiv (histSums h).1 (.fin 1000) := by
  rw [locAverage]
  exact div_div_mul_cancel (histSums h).1 (histSums h).2 hc

theorem weighted_fold (l : List (String × ResultHistogram)) :
    (∀ e ∈ l, 1 ≤ (histSums e.2).2) →
    ∀ t s : JsNum, t = jsDiv s (.fin 1000) →
      l.foldl (fun s e => jsAdd s (jsMul (locAverage e.2) (.fin (((histSums e.2).2 : ℚ))))) t
        = jsDiv (l.foldl (fun s e => jsAdd s (histSums e.2).1) s) (.fin 1000) := by
  induction l with
  | nil => intro _ t s ht; simpa using ht
  | cons e rest ih =>
    intro hc t s ht
    have he : 1 ≤ (histSums e.2).2 := hc e (List.mem_cons_self e rest)
    have hstep : jsAdd t (jsMul (locAverage e.2) (.fin (((histSums e.2).2 : ℚ))))
        = jsDiv (jsAdd s (histSums e.2).1) (.fin 1000) := by
      rw [ht, locAverage_mul e.2 he, jsDiv_thousand_add]
    exact ih (fun x hx => hc x (List.mem_cons_of_mem e hx)) _ _ hstep

theorem weightedSum_eq (acc : RecordDataAccumulator) (hwf : AccWF acc) :
    weightedSum acc = jsDiv (totalSumMillis acc) (.fin 1000) := by
  rw [weightedSum, totalSumMillis]
  exact weighted_fold acc.locationData.entries
    (fun e he => histSums_pos e.2 (hwf.hists e he).1 (hwf.hists e he).2)
    (.fin 0) (.fin 0) jsDiv_fin_zero_thousand.symm

/-
Claim theorems.
-/

/-- C1: for every accumulated state, the `-ALL-` entry of
`getLocationResults` equals the count-weighted overall average — the sum
over all locations of their millidegree sums, divided by 1000, divided by
the total count (equivalently `Σ(ai*ci)/Σci` for per-location averages `ai`
and counts `ci`) — and the `-ALL-` entry is present in the output only if
the total count is greater than 0. -/
theorem claim_C1 (records : List Record) :
    (0 < totalCount (accumulate records) →
      (accumulate records).getLocationResults.get "-ALL-"
          = some ⟨jsDiv (jsDiv (totalSumMillis (accumulate records)) (.fin 1000))
              (.fin ((totalCount (accumulate records) : ℚ)))⟩
        ∧ (accumulate records).getLocationResults.get "-ALL-"
          = some ⟨jsDiv (weightedSum (accumulate records))
              (.fin ((totalCount (accumulate records) : ℚ)))⟩)
    ∧ (totalCount (accumulate records) = 0 →
        (accumulate records).getLocationResults.get "-ALL-" = none) := by
  have hwf := AccWF_accumulate records
  have h := getLocationResults_all (accumulate records) hwf
  refine ⟨fun hpos => ⟨h.1 hpos, ?_⟩, h.2⟩
  rw [h.1 hpos, weightedSum_eq _ hwf]

theorem claim_C1_witness :
    0 < totalCount (accumulate [⟨"10.0", "Temperature, water", "A", "Site A"⟩])
    ∧ (accumulate [⟨"10.0", "Temperature, water", "A", "Site A"⟩]).getLocationResults.get "-ALL-"
        = some ⟨jsDiv (jsDiv
            (totalSumMillis (accumulate [⟨"10.0", "Temperature, water", "A", "Site A"⟩]))
            (.fin 1000))
            (.fin ((totalCount (accumulate [⟨"10.0", "Temperature, water", "A", "Site A"⟩]) : ℚ)))⟩ :=
  ⟨by decide,
    ((claim_C1 [⟨"10.0", "Temperature, water", "A", "Site A"⟩]).1 (by decide)).1⟩

/-- C10: after any sequence of `add` calls on a fresh accumulator, the key
list of the location registry equals the key list of the per-location
histogram map, and every histogram present is non-empty. -/
theorem claim_C10 (records : List Record) :
    (accumulate records).getLocations.keys = (accumulate records).getLocationData.keys
    ∧ ∀ e ∈ (accumulate records).getLocationData.entries, e.2.entries ≠ [] := by
  have hwf := AccWF_accumulate records
  exact ⟨hwf.keysEq, fun e he => (hwf.hists e he).1⟩

theorem claim_C10_witness :
    (accumulate [⟨"10.0", "Temperature, water", "A", "Site A"⟩,
        ⟨"7.5", "pH", "B", "Site B"⟩]).getLocations.keys
      = (accumulate [⟨"10.0", "Temperature, water", "A", "Site A"⟩,
        ⟨"7.5", "pH", "B", "Site B"⟩]).getLocationData.keys :=
  (claim_C10 [⟨"10.0", "Temperature, water", "A", "Site A"⟩, ⟨"7.5", "pH", "B", "Site B"⟩]).1

/-- The histogram map after a successful (filtered, parsed) `add`, for any
starting state: the record's location gets its effective old histogram with
the count at the quantized key bumped by one. -/
theorem add_locationData (acc : RecordDataAccumulator) (r : Record)
    (hchar : CHARACTERISTIC_NAME_MAP.get (jsToLower r.CharacteristicName)
      = some "Temperature, water")
    (hnan : jsIsNaN (jsParseFloat r.ResultValue) = false) :
    (acc.add r).locationData
      = (if acc.locationData.has r.MonitoringLocationID = true then acc.locationData
         else acc.locationData.set r.MonitoringLocationID JsMap.empty).set
          r.MonitoringLocationID
          (((acc.locationData.get r.MonitoringLocationID).getD JsMap.empty).set (recordKey r)
            ((((acc.locationData.get r.MonitoringLocationID).getD JsMap.empty).get
              (recordKey r)).getD 0 + 1)) := by
  rw [RecordDataAccumulator.add, if_pos hchar]
  simp only [hnan, Bool.false_eq_true, if_false]
  by_cases hhasD : acc.locationData.has r.MonitoringLocationID = true
  · simp only [hhasD, if_true, recordKey]
  · have hget : acc.locationData.get r.MonitoringLocationID = none := by
      rw [JsMap.has] at hhasD
      cases hg : acc.locationData.get r.MonitoringLocationID
      · rfl
      · rw [hg] at hhasD
        exact absurd rfl hhasD
    rw [if_neg hhasD]
    rw [JsMap.get_set_self, hget]
    rfl

/-- C3 (amended): a record whose characteristic does not match, or whose
`ResultValue` parses to NaN, leaves the accumulator exactly unchanged.
`add` is a total function on states, so no error can be raised.  (The
original claim said "does not parse as a finite number"; the code only
guards with `isNaN`, so `Infinity` is accepted — see the counterexample.) -/
theorem claim_C3 (acc : RecordDataAccumulator) (r : Record)
    (h : CHARACTERISTIC_NAME_MAP.get (jsToLower r.CharacteristicName)
        ≠ some "Temperature, water"
      ∨ jsParseFloat r.ResultValue = .nan) :
    acc.add r = acc := by
  rcases h with h | h
  · exact add_of_char_mismatch acc r h
  · refine add_of_nan acc r ?_
    rw [h]
    rfl

theorem claim_C3_witness :
    (CHARACTERISTIC_NAME_MAP.get (jsToLower "pH") ≠ some "Temperature, water"
      ∨ jsParseFloat "7.5" = .nan)
    ∧ RecordDataAccumulator.init.add ⟨"7.5", "pH", "LOC-001", "Site"⟩
        = RecordDataAccumulator.init :=
  ⟨Or.inl (by decide),
    claim_C3 RecordDataAccumulator.init ⟨"7.5", "pH", "LOC-001", "Site"⟩ (Or.inl (by decide))⟩

/-- C3 counterexample: `"Infinity"` parses to Infinity — not a finite
number — yet `add` accepts it: it registers the location and creates a
histogram entry keyed by Infinity, so the state is not left unchanged. -/
theorem claim_C3_counterexample :
    jsParseFloat "Infinity" = .inf
    ∧ (RecordDataAccumulator.init.add
        ⟨"Infinity", "Temperature, water", "LOC-001", "Site"⟩).locations.entries
        = [("LOC-001", "Site")]
    ∧ (RecordDataAccumulator.init.add
        ⟨"Infinity", "Temperature, water", "LOC-001", "Site"⟩).locationData.entries
        = [("LOC-001", ⟨[(.inf, 1)]⟩)]
    ∧ RecordDataAccumulator.init.add ⟨"Infinity", "Temperature, water", "LOC-001", "Site"⟩
        ≠ RecordDataAccumulator.init := by
  refine ⟨by decide, ?_, ?_, ?_⟩ <;> decide

/-- Truncation toward zero, the rounding mode the specification names for
the quantization step. -/
def truncTowardZero (q : ℚ) : ℤ :=
  if q < 0 then ⌈q⌉ else ⌊q⌋

/-- C4 (amended): for a record that passes the characteristic filter and
parses to a finite value `q`, the histogram key incremented by `add` is
`⌊q * 1000⌋` — the floor (rounding toward negative infinity), which agrees
with truncation toward zero only for nonnegative products.  All other keys
of the location's histogram keep their counts. -/
theorem claim_C4 (acc : RecordDataAccumulator) (r : Record) (q : ℚ)
    (hchar : CHARACTERISTIC_NAME_MAP.get (jsToLower r.CharacteristicName)
      = some "Temperature, water")
    (hq : jsParseFloat r.ResultValue = .fin q) :
    recordKey r = .fin ((⌊q * 1000⌋ : ℤ) : ℚ)
    ∧ ((acc.add r).locationData.get r.MonitoringLocationID).bind
          (fun h => h.get (recordKey r))
        = some ((((acc.locationData.get r.MonitoringLocationID).getD JsMap.empty).get
            (recordKey r)).getD 0 + 1)
    ∧ ∀ k : JsNum, k ≠ recordKey r →
        ((acc.add r).locationData.get r.MonitoringLocationID).bind (fun h => h.get k)
          = ((acc.locationData.get r.MonitoringLocationID).getD JsMap.empty).get k := by
  have hkey : recordKey r = .fin ((⌊q * 1000⌋ : ℤ) : ℚ) := by
    rw [recordKey, hq]
    rfl
  have hnan : jsIsNaN (jsParseFloat r.ResultValue) = false := by
    rw [hq]
    rfl
  refine ⟨hkey, ?_, ?_⟩
  · rw [add_locationData acc r hchar hnan, JsMap.get_set_self]
    rw [Option.some_bind, JsMap.get_set_self]
  · intro k hk
    rw [add_locationData acc r hchar hnan, JsMap.get_set_self]
    rw [Option.some_bind, JsMap.get_set_ne _ _ _ _ hk]

theorem claim_C4_witness :
    (CHARACTERISTIC_NAME_MAP.get (jsToLower "Temperature, water") = some "Temperature, water"
      ∧ jsParseFloat "12.3" = .fin (decValue 123 1 0))
    ∧ ((RecordDataAccumulator.init.add
          ⟨"12.3", "Temperature, water", "LOC-001", "Site"⟩).locationData.get "LOC-001").bind
          (fun h => h.get (recordKey ⟨"12.3", "Temperature, water", "LOC-001", "Site"⟩))
        = some ((((RecordDataAccumulator.init.locationData.get "LOC-001").getD
            JsMap.empty).get
            (recordKey ⟨"12.3", "Temperature, water", "LOC-001", "Site"⟩)).getD 0 + 1) :=
  ⟨⟨by decide, rfl⟩,
    (claim_C4 RecordDataAccumulator.init ⟨"12.3", "Temperature, water", "LOC-001", "Site"⟩
      (decValue 123 1 0) (by decide) rfl).2.1⟩

/-- C4 counterexample: for `ResultValue` `"-0.0005"` the parsed value is
`-1/2000`; multiplying by 1000 gives `-1/2`, whose truncation toward zero
is `0`, but the histogram key actually created is `-1` (`Math.floor` rounds
toward negative infinity). -/
theorem claim_C4_counterexample :
    jsParseFloat "-0.0005" = .fin (-(1 / 2000))
    ∧ truncTowardZero ((-(1 / 2000) : ℚ) * 1000) = 0
    ∧ (RecordDataAccumulator.init.add
          ⟨"-0.0005", "Temperature, water", "LOC-001", "Site"⟩).locationData.get "LOC-001"
        = some ⟨[(.fin (-1), 1)]⟩
    ∧ (JsNum.fin (-1))
        ≠ .fin ((truncTowardZero ((-(1 / 2000) : ℚ) * 1000) : ℤ) : ℚ) := by
  have hparse : jsParseFloat "-0.0005" = .fin (-(1 / 2000)) := by
    have h1 : jsParseFloat "-0.0005" = .fin (-decValue 5 4 0) := rfl
    rw [h1]
    norm_num [decValue]
  have htrunc : truncTowardZero ((-(1 / 2000) : ℚ) * 1000) = 0 := by
    norm_num [truncTowardZero]
  have hkey : recordKey ⟨"-0.0005", "Temperature, water", "LOC-001", "Site"⟩ = .fin (-1) := by
    rw [recordKey]
    show jsFloor (jsMul (jsParseFloat "-0.0005") (.fin 1000)) = .fin (-1)
    rw [hparse]
    show JsNum.fin ((⌊(-(1 / 2000) : ℚ) * 1000⌋ : ℤ) : ℚ) = .fin (-1)
    norm_num
  have hfresh := add_of_fresh RecordDataAccumulator.init
    ⟨"-0.0005", "Temperature, water", "LOC-001", "Site"⟩
    (by decide) (by rw [hparse]; rfl) (by decide) (by decide)
  refine ⟨hparse, htrunc, ?_, ?_⟩
  · rw [hfresh, hkey]
    rfl
  · rw [htrunc]
    intro h
    have h2 : (-1 : ℚ) = ((0 : ℤ) : ℚ) := JsNum.fin.inj h
    norm_num at h2

/-- The full state after adding the same record `n + 1` times to a fresh
accumulator: one location, one histogram key, count `n + 1`. -/
theorem replicate_state (r : Record)
    (hchar : CHARACTERISTIC_NAME_MAP.get (jsToLower r.CharacteristicName)
      = some "Temperature, water")
    (hnan : jsIsNaN (jsParseFloat r.ResultValue) = false) :
    ∀ n : ℕ, accumulate (List.replicate (n + 1) r)
      = ⟨⟨[(r.MonitoringLocationID, ⟨[(recordKey r, n + 1)]⟩)]⟩,
         ⟨[(r.MonitoringLocationID, r.MonitoringLocationName)]⟩⟩ := by
  intro n
  induction n with
  | zero =>
    show (RecordDataAccumulator.init.add r) = _
    rw [add_of_fresh RecordDataAccumulator.init r hchar hnan rfl rfl]
    rfl
  | succ m ih =>
    have hsplit : List.replicate (m + 1 + 1) r = List.replicate (m + 1) r ++ [r] :=
      List.replicate_succ' (m + 1) r
    rw [accumulate] at ih
    rw [accumulate, hsplit, List.foldl_append]
    simp only [List.foldl_cons, List.foldl_nil]
    rw [ih]
    rw [add_of_seen _ r ⟨[(recordKey r, m + 1)]⟩ hchar hnan
      (by simp [JsMap.has, JsMap.get, lookupFirst])
      (by simp [JsMap.get, lookupFirst])]
    simp [JsMap.set, JsMap.get, setFirst, lookupFirst]

/-- C7: adding N ≥ 1 records with the same parseable `ResultValue`, the
same matching characteristic and the same location to a fresh accumulator
yields a histogram for that location with exactly one key — the quantized
`floor(v*1000)` key — whose count is N. -/
theorem claim_C7 (rv cn li ln : String) (N : ℕ)
    (hchar : CHARACTERISTIC_NAME_MAP.get (jsToLower cn) = some "Temperature, water")
    (hp : jsParseFloat rv ≠ .nan)
    (hN : 1 ≤ N) :
    (accumulate (List.replicate N ⟨rv, cn, li, ln⟩)).locationData.get li
      = some ⟨[(recordKey ⟨rv, cn, li, ln⟩, N)]⟩ := by
  have hnan : jsIsNaN (jsParseFloat rv) = false := by
    cases h : jsParseFloat rv
    · exact absurd h hp
    · rfl
    · rfl
    · rfl
  obtain ⟨n, rfl⟩ : ∃ n, N = n + 1 := ⟨N - 1, by omega⟩
  rw [replicate_state ⟨rv, cn, li, ln⟩ hchar hnan n]
  simp [JsMap.get, lookupFirst]

theorem claim_C7_witness :
    (CHARACTERISTIC_NAME_MAP.get (jsToLower "Temperature, water") = some "Temperature, water"
      ∧ jsParseFloat "15.5" ≠ .nan ∧ 1 ≤ 5)
    ∧ (accumulate (List.replicate 5
          ⟨"15.5", "Temperature, water", "LOC-001", "Test Location"⟩)).locationData.get "LOC-001"
        = some ⟨[(recordKey ⟨"15.5", "Temperature, water", "LOC-001", "Test Location"⟩, 5)]⟩ :=
  ⟨⟨by decide, by decide, by decide⟩,
    claim_C7 "15.5" "Temperature, water" "LOC-001" "Test Location" 5
      (by decide) (by decide) (by decide)⟩

/-
Header validation and normalization: claim C5.
-/

/-- Specification-side: the first required canonical column with no
case-insensitive match among the headers. -/
def firstMissingColumn (headers : List String) : Option String :=
  REQUIRED_COLUMNS.find? (fun c => decide (jsToLower c ∉ headers.map jsToLower))

/-- Specification-side: replace a header matching a canonical name
case-insensitively by its canonical spelling; pass others through. -/
def canonicalizeHeader (h : String) : String :=
  match REQUIRED_COLUMNS.find? (fun c => decide (jsToLower c = jsToLower h)) with
  | some c => c
  | none => h

theorem REQUIRED_COLUMN_NAME_MAP_entries :
    REQUIRED_COLUMN_NAME_MAP
      = ⟨[("resultvalue", "ResultValue"), ("characteristicname", "CharacteristicName"),
          ("monitoringlocationid", "MonitoringLocationID"),
          ("monitoringlocationname", "MonitoringLocationName")]⟩ := by
  decide

/-- C5: validation fails with a `MissingColumnError` naming the first
missing canonical column whenever some required column has no
case-insensitive match; otherwise it succeeds, and normalization returns a
same-length, order-preserving list replacing case-insensitive matches of
canonical names by their canonical spelling and passing other headers
through unchanged. -/
theorem claim_C5 (headers : List String) :
    (validateHeaders headers
        = match firstMissingColumn headers with
          | some c => .error (missingColumnMessage c)
          | none => .ok ())
    ∧ normalizeHeaders headers = headers.map canonicalizeHeader
    ∧ (normalizeHeaders headers).length = headers.length
    ∧ (firstMissingColumn headers = none
        ↔ ∀ c ∈ REQUIRED_COLUMNS, jsToLower c ∈ headers.map jsToLower) := by
  have hl1 : jsToLower "ResultValue" = "resultvalue" := by decide
  have hl2 : jsToLower "CharacteristicName" = "characteristicname" := by decide
  have hl3 : jsToLower "MonitoringLocationID" = "monitoringlocationid" := by decide
  have hl4 : jsToLower "MonitoringLocationName" = "monitoringlocationname" := by decide
  have hv1 : (REQUIRED_COLUMN_NAME_MAP.get "resultvalue").getD "undefined" = "ResultValue" := by
    decide
  have hv2 : (REQUIRED_COLUMN_NAME_MAP.get "characteristicname").getD "undefined"
      = "CharacteristicName" := by decide
  have hv3 : (REQUIRED_COLUMN_NAME_MAP.get "monitoringlocationid").getD "undefined"
      = "MonitoringLocationID" := by decide
  have hv4 : (REQUIRED_COLUMN_NAME_MAP.get "monitoringlocationname").getD "undefined"
      = "MonitoringLocationName" := by decide
  refine ⟨?_, ?_, ?_, ?_⟩
  · rw [validateHeaders, REQUIRED_COLUMN_NAME_MAP_entries]
    show validateHeadersGo ["resultvalue", "characteristicname", "monitoringlocationid",
      "monitoringlocationname"] (headers.map jsToLower) = _
    rw [firstMissingColumn]
    by_cases h1 : "resultvalue" ∈ headers.map jsToLower <;>
      by_cases h2 : "characteristicname" ∈ headers.map jsToLower <;>
        by_cases h3 : "monitoringlocationid" ∈ headers.map jsToLower <;>
          by_cases h4 : "monitoringlocationname" ∈ headers.map jsToLower <;>
            simp [validateHeadersGo, REQUIRED_COLUMNS, List.find?, h1, h2, h3, h4,
              hl1, hl2, hl3, hl4, hv1, hv2, hv3, hv4]
  · rw [normalizeHeaders]
    refine List.map_congr_left ?_
    intro h _
    rw [REQUIRED_COLUMN_NAME_MAP_entries, canonicalizeHeader]
    by_cases e1 : "resultvalue" = jsToLower h
    · simp [JsMap.get, lookupFirst, List.find?, REQUIRED_COLUMNS, hl1, ← e1]
    · by_cases e2 : "characteristicname" = jsToLower h
      · simp [JsMap.get, lookupFirst, List.find?, REQUIRED_COLUMNS, hl1, hl2, e1, ← e2]
      · by_cases e3 : "monitoringlocationid" = jsToLower h
        · simp [JsMap.get, lookupFirst, List.find?, REQUIRED_COLUMNS, hl1, hl2, hl3,
            e1, e2, ← e3]
        · by_cases e4 : "monitoringlocationname" = jsToLower h
          · simp [JsMap.get, lookupFirst, List.find?, REQUIRED_COLUMNS, hl1, hl2, hl3, hl4,
              e1, e2, e3, ← e4]
          · simp [JsMap.get, lookupFirst, List.find?, REQUIRED_COLUMNS, hl1, hl2, hl3, hl4,
              e1, e2, e3, e4]
  · rw [normalizeHeaders, List.length_map]
  · rw [firstMissingColumn, List.find?_eq_none]
    simp

theorem claim_C5_witness :
    validateHeaders ["resultValue", "characteristicname", "Extra",
        "MonitoringLocationID", "MONITORINGLOCATIONNAME"]
      = .ok ()
    ∧ normalizeHeaders ["resultValue", "characteristicname", "Extra",
        "MonitoringLocationID", "MONITORINGLOCATIONNAME"]
      = ["ResultValue", "CharacteristicName", "Extra",
        "MonitoringLocationID", "MonitoringLocationName"] := by
  have h := claim_C5 ["resultValue", "characteristicname", "Extra",
    "MonitoringLocationID", "MONITORINGLOCATIONNAME"]
  refine ⟨?_, ?_⟩
  · rw [h.1]
    have hnone : firstMissingColumn ["resultValue", "characteristicname", "Extra",
        "MonitoringLocationID", "MONITORINGLOCATIONNAME"] = none := by decide
    rw [hnone]
  · rw [h.2.1]
    decide

/-
Result structures and worker serialization: claim C8.
-/

/-- Results from parsing a CSV file. -/
structure ParseResults where
  monitoringLocations : JsMap String String
  monitoringLocationResults : JsMap String LocationResult
deriving DecidableEq

/-- Serializable version of `ParseResults` (Maps converted to arrays). -/
structure SerializableParseResults where
  monitoringLocations : List (String × String)
  monitoringLocationResults : List (String × LocationResult)
deriving DecidableEq

/-- `serializeResults` from CsvWebWorker.ts: `Array.from(map.entries())`
for both maps. -/
def serializeResults (results : ParseResults) : SerializableParseResults :=
  ⟨results.monitoringLocations.entries, results.monitoringLocationResults.entries⟩

/-- `deserializeResults` from CsvParserWeb.ts: `new Map(array)` for both
arrays. -/
def deserializeResults (serialized : SerializableParseResults) : ParseResults :=
  ⟨JsMap.ofList serialized.monitoringLocations,
   JsMap.ofList serialized.monitoringLocationResults⟩

/-- A result structure whose two maps have pairwise-distinct keys (true of
every map a JavaScript `Map` object can hold). -/
def ParseResults.WF (r : ParseResults) : Prop :=
  r.monitoringLocations.WF ∧ r.monitoringLocationResults.WF

/-- C8: serializing a result structure to arrays of 2-tuples and
deserializing back yields maps equal to the originals — the same key sets
and the same associated values. -/
theorem claim_C8 (r : ParseResults) (h : r.WF) :
    deserializeResults (serializeResults r) = r := by
  obtain ⟨h1, h2⟩ := h
  cases r with
  | mk a b =>
    cases a with
    | mk ea =>
      cases b with
      | mk eb =>
        rw [serializeResults, deserializeResults]
        rw [ofList_eq_of_nodup ea h1, ofList_eq_of_nodup eb h2]

theorem claim_C8_witness :
    (ParseResults.WF ⟨⟨[("A", "Site A"), ("B", "Site B")]⟩,
        ⟨[("A", ⟨.fin 10⟩), ("-ALL-", ⟨.fin 10⟩)]⟩⟩)
    ∧ deserializeResults (serializeResults ⟨⟨[("A", "Site A"), ("B", "Site B")]⟩,
        ⟨[("A", ⟨.fin 10⟩), ("-ALL-", ⟨.fin 10⟩)]⟩⟩)
      = ⟨⟨[("A", "Site A"), ("B", "Site B")]⟩, ⟨[("A", ⟨.fin 10⟩), ("-ALL-", ⟨.fin 10⟩)]⟩⟩ :=
  ⟨⟨by show (List.map Prod.fst [("A", "Site A"), ("B", "Site B")]).Nodup; decide,
    by show (List.map Prod.fst
        [("A", (⟨.fin 10⟩ : LocationResult)), ("-ALL-", ⟨.fin 10⟩)]).Nodup; decide⟩,
    claim_C8 ⟨⟨[("A", "Site A"), ("B", "Site B")]⟩, ⟨[("A", ⟨.fin 10⟩), ("-ALL-", ⟨.fin 10⟩)]⟩⟩
      ⟨by show (List.map Prod.fst [("A", "Site A"), ("B", "Site B")]).Nodup; decide,
       by show (List.map Prod.fst
          [("A", (⟨.fin 10⟩ : LocationResult)), ("-ALL-", ⟨.fin 10⟩)]).Nodup; decide⟩⟩

/-
Header trimming (claim C9) and the row-level coordinator (claim C6).
-/

theorem dropWhile_append_all {α : Type} (p : α → Bool) (l1 l2 : List α)
    (h : ∀ x ∈ l1, p x = true) : (l1 ++ l2).dropWhile p = l2.dropWhile p := by
  induction l1 with
  | nil => simp
  | cons a t ih =>
    rw [List.cons_append, List.dropWhile_cons, if_pos (h a (List.mem_cons_self a t))]
    exact ih (fun x hx => h x (List.mem_cons_of_mem a hx))

theorem dropWhile_eq_self_append {α : Type} (p : α → Bool) (l1 l2 : List α)
    (hself : l1.dropWhile p = l1) (hne : l1 ≠ []) :
    (l1 ++ l2).dropWhile p = l1 ++ l2 := by
  cases l1 with
  | nil => exact absurd rfl hne
  | cons a t =>
    have ha : ¬(p a = true) := by
      have := List.dropWhile_eq_self_iff.mp hself (by simp)
      simpa using this
    rw [List.cons_append, List.dropWhile_cons, if_neg ha]

/-- Trimming whitespace wrapped around a token that neither starts nor ends
with whitespace recovers the token. -/
theorem jsTrimChars_wrap (pre post tok : List Char)
    (hpre : ∀ ch ∈ pre, jsWhitespace ch = true)
    (hpost : ∀ ch ∈ post, jsWhitespace ch = true)
    (hne : tok ≠ [])
    (h1 : tok.dropWhile jsWhitespace = tok)
    (h2 : tok.reverse.dropWhile jsWhitespace = tok.reverse) :
    jsTrimChars (pre ++ tok ++ post) = tok := by
  rw [jsTrimChars, List.append_assoc]
  rw [dropWhile_append_all jsWhitespace pre (tok ++ post) hpre]
  rw [dropWhile_eq_self_append jsWhitespace tok post h1 hne]
  rw [List.reverse_append]
  rw [dropWhile_append_all jsWhitespace post.reverse tok.reverse
    (fun x hx => hpost x (List.mem_reverse.mp hx))]
  rw [h2, List.reverse_reverse]

/-- Modelled from the spec: the tokenizer (csv-parse) is configured with
`trim: true` in `getParser`, so every header field is trimmed before the
`columns` callback runs `validateHeaders` and `normalizeHeaders`.  The
tokenizer itself is an external collaborator, outside this repository. -/
def processHeaderRow (raw : List String) : Except String (List String) :=
  match validateHeaders (raw.map jsTrim) with
  | .error e => .error e
  | .ok _ => .ok (normalizeHeaders (raw.map jsTrim))

/-- C9: a raw header that is a required canonical column name surrounded by
whitespace is trimmed back to the canonical name before the
case-insensitive comparison; a header row of such padded names passes
validation and is canonicalized instead of raising `MissingColumnError`. -/
theorem claim_C9 (pre post : List Char) (c : String)
    (hpre : ∀ ch ∈ pre, jsWhitespace ch = true)
    (hpost : ∀ ch ∈ post, jsWhitespace ch = true)
    (hc : c ∈ REQUIRED_COLUMNS) :
    jsTrim ⟨pre ++ c.data ++ post⟩ = c
    ∧ processHeaderRow (REQUIRED_COLUMNS.map (fun col => ⟨pre ++ col.data ++ post⟩))
        = .ok REQUIRED_COLUMNS := by
  have htrim : ∀ c' ∈ REQUIRED_COLUMNS, jsTrim ⟨pre ++ c'.data ++ post⟩ = c' := by
    intro c' hc'
    rw [REQUIRED_COLUMNS] at hc'
    simp only [List.mem_cons, List.not_mem_nil, or_false] at hc'
    have hwrap : ∀ tok : List Char, tok ≠ [] →
        tok.dropWhile jsWhitespace = tok →
        tok.reverse.dropWhile jsWhitespace = tok.reverse →
        jsTrim ⟨pre ++ tok ++ post⟩ = (⟨tok⟩ : String) := by
      intro tok hne h1 h2
      rw [jsTrim]
      rw [show (String.mk (pre ++ tok ++ post)).data = pre ++ tok ++ post from rfl]
      rw [jsTrimChars_wrap pre post tok hpre hpost hne h1 h2]
    rcases hc' with rfl | rfl | rfl | rfl
    · exact hwrap "ResultValue".data (by decide) (by decide) (by decide)
    · exact hwrap "CharacteristicName".data (by decide) (by decide) (by decide)
    · exact hwrap "MonitoringLocationID".data (by decide) (by decide) (by decide)
    · exact hwrap "MonitoringLocationName".data (by decide) (by decide) (by decide)
  refine ⟨htrim c hc, ?_⟩
  have hmap : (REQUIRED_COLUMNS.map (fun col => (⟨pre ++ col.data ++ post⟩ : String))).map jsTrim
      = REQUIRED_COLUMNS := by
    rw [List.map_map]
    have := List.map_congr_left (l := REQUIRED_COLUMNS)
      (f := jsTrim ∘ fun col => (⟨pre ++ col.data ++ post⟩ : String)) (g := id) ?_
    · rw [this, List.map_id]
    · intro a ha
      exact htrim a ha
  rw [processHeaderRow, hmap]
  have hval : validateHeaders REQUIRED_COLUMNS = .ok () := by
    rw [(claim_C5 REQUIRED_COLUMNS).1]
    have : firstMissingColumn REQUIRED_COLUMNS = none := by decide
    rw [this]
  have hnorm : normalizeHeaders REQUIRED_COLUMNS = REQUIRED_COLUMNS := by decide
  rw [hval, hnorm]

theorem claim_C9_witness :
    ((∀ ch ∈ [' '], jsWhitespace ch = true) ∧ (∀ ch ∈ [' ', '\t'], jsWhitespace ch = true)
      ∧ "ResultValue" ∈ REQUIRED_COLUMNS)
    ∧ jsTrim ⟨[' '] ++ "ResultValue".data ++ [' ', '\t']⟩ = "ResultValue"
    ∧ processHeaderRow (REQUIRED_COLUMNS.map
        (fun col => ⟨[' '] ++ col.data ++ [' ', '\t']⟩)) = .ok REQUIRED_COLUMNS :=
  ⟨⟨by decide, by decide, by decide⟩,
    (claim_C9 [' '] [' ', '\t'] "ResultValue" (by decide) (by decide) (by decide)).1,
    (claim_C9 [' '] [' ', '\t'] "ResultValue" (by decide) (by decide) (by decide)).2⟩

/-- Modelled from the spec: how the tokenizer maps a data row's fields to
the canonical record fields once headers are normalized. -/
def fieldValue (headers : List String) (row : List String) (name : String) : String :=
  match (headers.zip row).find? (fun p => decide (p.1 = name)) with
  | some p => p.2
  | none => ""

/-- Modelled from the spec: a raw tokenized row as a canonical `Record`. -/
def toRecord (headers : List String) (row : List String) : Record :=
  ⟨fieldValue headers row "ResultValue", fieldValue headers row "CharacteristicName",
   fieldValue headers row "MonitoringLocationID", fieldValue headers row "MonitoringLocationName"⟩

/-- Modelled from the spec: the streaming coordinator (`parseCsv` plus the
external csv-parse tokenizer and the Node stream pipeline) at row level.
The byte stream is abstracted as the list of rows the tokenizer produces;
an empty byte stream produces no rows, so the source ends before any
header row was observed and validated (`headersValidated` stays false in
`parseCsv`) and the coordinator reports the `HeaderMissingError` message
"CSV file must have a header line". -/
def parseCsvRows (rows : List (List String)) : Except String ParseResults :=
  match rows with
  | [] => .error "CSV file must have a header line"
  | headers :: dataRows =>
    match processHeaderRow headers with
    | .error e => .error e
    | .ok normalized =>
      let acc := accumulate (dataRows.map (toRecord normalized))
      .ok ⟨acc.getLocations, acc.getLocationResults⟩

/-- C6: an entirely empty byte stream — no rows at all — makes `parseCsv`
fail with the `HeaderMissingError` message "CSV file must have a header
line", which differs from every `MissingColumnError` message.  The result
is an `Except.error`, so no result structure is returned. -/
theorem claim_C6 :
    parseCsvRows [] = .error "CSV file must have a header line"
    ∧ REQUIRED_COLUMNS.all
        (fun c => !(missingColumnMessage c == "CSV file must have a header line")) = true :=
  ⟨rfl, by decide⟩

/-
Claim C2: the concrete two-record scenario.
-/

theorem parse_ten : jsParseFloat "10.0" = .fin 10 := by
  have h : jsParseFloat "10.0" = .fin (decValue 100 1 0) := rfl
  rw [h]
  norm_num [decValue]

theorem parse_twenty : jsParseFloat "20.0" = .fin 20 := by
  have h : jsParseFloat "20.0" = .fin (decValue 200 1 0) := rfl
  rw [h]
  norm_num [decValue]

theorem key_ten : recordKey ⟨"10.0", "Temperature, water", "A", "Site A"⟩ = .fin 10000 := by
  simp only [recordKey, parse_ten]
  show JsNum.fin ((⌊(10 : ℚ) * 1000⌋ : ℤ) : ℚ) = .fin 10000
  norm_num

theorem key_twenty : recordKey ⟨"20.0", "Temperature, water", "B", "Site B"⟩ = .fin 20000 := by
  simp only [recordKey, parse_twenty]
  show JsNum.fin ((⌊(20 : ℚ) * 1000⌋ : ℤ) : ℚ) = .fin 20000
  norm_num

theorem c2_state :
    accumulate [⟨"10.0", "Temperature, water", "A", "Site A"⟩,
        ⟨"20.0", "Temperature, water", "B", "Site B"⟩]
      = ⟨⟨[("A", ⟨[(.fin 10000, 1)]⟩), ("B", ⟨[(.fin 20000, 1)]⟩)]⟩,
         ⟨[("A", "Site A"), ("B", "Site B")]⟩⟩ := by
  show ((RecordDataAccumulator.init.add
      ⟨"10.0", "Temperature, water", "A", "Site A"⟩).add
      ⟨"20.0", "Temperature, water", "B", "Site B"⟩) = _
  rw [add_of_fresh RecordDataAccumulator.init ⟨"10.0", "Temperature, water", "A", "Site A"⟩
    (by decide) rfl rfl rfl]
  rw [key_ten]
  rw [add_of_fresh _ ⟨"20.0", "Temperature, water", "B", "Site B"⟩
    (by decide) rfl (by decide) (by decide)]
  rw [key_twenty]
  rfl

/-- C2 (evaluation at the failing input): on the two-record input the
returned map carries the claimed averages — A ↦ 10, B ↦ 20, `-ALL-` ↦ 15 —
but each Location Result consists of the `average` field alone; the
`LocationResult` emitted by `RecordDataAccumulator.getLocationResults` has
no `count` field at all. -/
theorem claim_C2_eval :
    (accumulate [⟨"10.0", "Temperature, water", "A", "Site A"⟩,
        ⟨"20.0", "Temperature, water", "B", "Site B"⟩]).getLocationResults
      = ⟨[("A", ⟨.fin 10⟩), ("B", ⟨.fin 20⟩), ("-ALL-", ⟨.fin 15⟩)]⟩ := by
  have hAB : ¬(("A" : String) = "B") := by decide
  have hAall : ¬(("A" : String) = "-ALL-") := by decide
  have hBall : ¬(("B" : String) = "-ALL-") := by decide
  have m1 : jsMul (.fin 10000) (.fin 1) = .fin 10000 := by norm_num [jsMul]
  have m2 : jsMul (.fin 20000) (.fin 1) = .fin 20000 := by norm_num [jsMul]
  have a1 : jsAdd (.fin 0) (.fin 10000) = .fin 10000 := by norm_num [jsAdd]
  have a2 : jsAdd (.fin 0) (.fin 20000) = .fin 20000 := by norm_num [jsAdd]
  have a3 : jsAdd (.fin 10000) (.fin 20000) = .fin 30000 := by norm_num [jsAdd]
  have d1 : jsDiv (jsDiv (.fin 10000) (.fin 1000)) (.fin 1) = .fin 10 := by
    norm_num [jsDiv]
  have d2 : jsDiv (jsDiv (.fin 20000) (.fin 1000)) (.fin 1) = .fin 20 := by
    norm_num [jsDiv]
  have d3 : jsDiv (jsDiv (.fin 30000) (.fin 1000)) (.fin 2) = .fin 15 := by
    norm_num [jsDiv]
  rw [c2_state]
  rw [RecordDataAccumulator.getLocationResults]
  simp [histSums, JsMap.set, JsMap.empty, setFirst, hAB, hAall, hBall,
    m1, m2, a1, a2, a3, d1, d2, d3]

end DatastreamCsv
